import Mathlib

/-!
# nginx_updater: shallow embedding of `main.go`

The reconciliation core of `main.go` (`getServicePort`, `getNodeIPs`,
`generateNginxConf`, `reloadNginx`, `updateNginxConfig`, `watchNodes`) is
embedded with explicit state passing.

* Go `string` values are Lean `String`s (valid Unicode text).
* Go `error` values are represented by their message (what `Error()` returns);
  `nil` is `none`.  `%w` wrapping only contributes the wrapped message.
* `int32` port numbers are `Int`s; the code does no arithmetic on them.
* The collaborators (cluster API, file system writes, the reload process) answer
  through an `Env` record; what the program did to them is recorded in `World`.
* The logger prefix and time stamp are not part of the recorded log payload.
-/

namespace NginxUpdater

/-! ## Text formatting used by the program (`fmt`, `strconv`) -/

/-- The double quote rune. -/
def dquote : Char := Char.ofNat 34

/-- The backslash rune. -/
def backslash : Char := Char.ofNat 92

/-- Digit table of `strconv` (`lowerhex`). -/
def lowerhex (n : Nat) : Char := "0123456789abcdef".data.getD (n % 16) (Char.ofNat 48)

/-- Printable runes as in `strconv.IsPrint`: the Latin-1 range is decided by the two
interval tests of the library; above it the library consults its Unicode tables,
which are taken here as the parameter `isPrintWide`. -/
def isPrint (isPrintWide : Char → Bool) (r : Char) : Bool :=
  if r.toNat ≤ 0xFF then
    if 0x20 ≤ r.toNat ∧ r.toNat ≤ 0x7E then true
    else if 0xA1 ≤ r.toNat ∧ r.toNat ≤ 0xFF then r.toNat != 0xAD
    else false
  else isPrintWide r

/-- Escaping of one rune inside a double-quoted Go literal
(`strconv.appendEscapedRune` with quote `"`, not ASCII-only, not graphic-only). -/
def appendEscapedRune (isPrintWide : Char → Bool) (buf : List Char) (r : Char) : List Char :=
  if r = dquote ∨ r = backslash then buf ++ [backslash, r]
  else if isPrint isPrintWide r then buf ++ [r]
  else if r.toNat = 7 then buf ++ [backslash, Char.ofNat 97]
  else if r.toNat = 8 then buf ++ [backslash, Char.ofNat 98]
  else if r.toNat = 12 then buf ++ [backslash, Char.ofNat 102]
  else if r.toNat = 10 then buf ++ [backslash, Char.ofNat 110]
  else if r.toNat = 13 then buf ++ [backslash, Char.ofNat 114]
  else if r.toNat = 9 then buf ++ [backslash, Char.ofNat 116]
  else if r.toNat = 11 then buf ++ [backslash, Char.ofNat 118]
  else if r.toNat < 0x20 ∨ r.toNat = 0x7f then
    buf ++ [backslash, Char.ofNat 120, lowerhex (r.toNat / 16), lowerhex r.toNat]
  else if r.toNat < 0x10000 then
    buf ++ [backslash, Char.ofNat 117] ++
      [lowerhex (r.toNat / 4096), lowerhex (r.toNat / 256), lowerhex (r.toNat / 16),
       lowerhex r.toNat]
  else
    buf ++ [backslash, Char.ofNat 85] ++
      [lowerhex (r.toNat / 268435456), lowerhex (r.toNat / 16777216),
       lowerhex (r.toNat / 1048576), lowerhex (r.toNat / 65536),
       lowerhex (r.toNat / 4096), lowerhex (r.toNat / 256), lowerhex (r.toNat / 16),
       lowerhex r.toNat]

/-- The verb `%q` on a string (`strconv.Quote`): the text between double quotes,
each rune escaped by `appendEscapedRune`. -/
def quote (isPrintWide : Char → Bool) (s : String) : String :=
  String.mk (s.data.foldl (appendEscapedRune isPrintWide) [dquote] ++ [dquote])

/-- The verb `%d` on an `int32`. -/
def formatD (n : Int) : String :=
  if n < 0 then "-" ++ Nat.repr n.natAbs else Nat.repr n.natAbs

/-- The verb `%v` on a `[]string`: the elements separated by blanks, in brackets. -/
def formatStrings (xs : List String) : String :=
  "[" ++ " ".intercalate xs ++ "]"

/-- Text `sub` occurs in text `s`. -/
def Contains (s sub : String) : Prop := sub.data <:+: s.data

instance (s sub : String) : Decidable (Contains s sub) := by
  unfold Contains; infer_instance

/-! ## Cluster objects (the fields of `corev1` the program reads) -/

/-- Fields of `corev1.ServicePort` read by the program. -/
structure ServicePort where
  Name : String
  Port : Int
  NodePort : Int
deriving DecidableEq, Repr

/-- A `corev1.Service`, reduced to `Spec.Ports`. -/
structure Service where
  Ports : List ServicePort
deriving DecidableEq, Repr

/-- Fields of `corev1.NodeCondition` read by the program (`Typ` is the field `Type`). -/
structure NodeCondition where
  Typ : String
  Status : String
deriving DecidableEq, Repr

/-- Fields of `corev1.NodeAddress` read by the program (`Typ` is the field `Type`). -/
structure NodeAddress where
  Typ : String
  Address : String
deriving DecidableEq, Repr

/-- A `corev1.Node`, reduced to `Status.Conditions` and `Status.Addresses`. -/
structure Node where
  Conditions : List NodeCondition
  Addresses : List NodeAddress
deriving DecidableEq, Repr

/-- Constant `corev1.NodeReady`. -/
def NodeReady : String := "Ready"

/-- Constant `corev1.ConditionTrue`. -/
def ConditionTrue : String := "True"

/-- Constant `corev1.NodeInternalIP`. -/
def NodeInternalIP : String := "InternalIP"

/-! ## Environment and recorded effects -/

/-- A request sent to the cluster API. -/
inductive ApiCall where
  | servicesGet (nspace : String) (name : String)
  | nodesList (labelSelector : String)
  | nodesWatch
deriving DecidableEq, Repr

/-- Outcome of `os.WriteFile`: success, or an error together with whatever the
path holds afterwards. -/
inductive WriteOutcome where
  | ok
  | failed (err : String) (after : Option String)
deriving DecidableEq, Repr

/-- Answers of the collaborators during one reconciliation cycle. -/
structure Env where
  /-- Answer of `Services(namespace).Get(name)`. -/
  getService : String → String → Except String Service
  /-- Answer of `Nodes().List` for a label selector. -/
  listNodes : String → Except String (List Node)
  /-- Outcome of `os.WriteFile path data`. -/
  writeFile : String → String → WriteOutcome
  /-- `CombinedOutput` of a command: captured output and the execution error, if any. -/
  runCmd : List String → String × Option String
  /-- Unicode table part of `strconv.IsPrint`. -/
  isPrintWide : Char → Bool

/-- What the program has done to the outside so far. -/
structure World where
  files : String → Option String
  calls : List ApiCall
  execs : List (List String)
  logs : List String

/-- Fields of the program's `Config`. -/
structure Config where
  Namespace : String
  ServiceName : String
  PortName : String
  NginxConf : String
  ReloadCmd : List String
  NodeLabelKey : String
  NodeLabelVal : String
  IgnoreNotReady : Bool

/-- Append one line through the logger. -/
def World.log (w : World) (msg : String) : World :=
  { w with logs := w.logs ++ [msg] }

/-! ## `getServicePort` -/

/-- The loop of `getServicePort` over `svc.Spec.Ports`: the first port that has the
requested name (any port when no name is requested) decides the result. -/
def getServicePortLoop (portName : String) : List ServicePort → Option Int
  | [] => none
  | port :: rest =>
    if portName = "" ∨ port.Name = portName then
      if port.NodePort ≠ 0 then some port.NodePort else some port.Port
    else getServicePortLoop portName rest

/-- Message of the error built at the end of `getServicePort`. -/
def portNotFound (env : Env) (nspace svcName portName : String) : String :=
  "port " ++ quote env.isPrintWide portName ++ " not found in service " ++ nspace ++ "/" ++ svcName

/-- Function `getServicePort`: fetch the service, then scan its ports. -/
def getServicePort (env : Env) (w : World) (nspace svcName portName : String) :
    Except String Int × World :=
  let w1 := { w with calls := w.calls ++ [ApiCall.servicesGet nspace svcName] }
  match env.getService nspace svcName with
  | .error err => (.error err, w1)
  | .ok svc =>
    match getServicePortLoop portName svc.Ports with
    | some p => (.ok p, w1)
    | none => (.error (portNotFound env nspace svcName portName), w1)


/-! ## `getNodeIPs` -/

/-- The selector `getNodeIPs` puts into `metav1.ListOptions.LabelSelector`. -/
def labelSelector (labelKey labelVal : String) : String :=
  if labelKey ≠ "" then
    if labelVal ≠ "" then labelKey ++ "=" ++ labelVal
    else labelKey
  else ""

/-- The loop over `node.Status.Conditions`: the first condition of type `Ready`
ends the loop and sets `isReady` when its status is `True`. -/
def isReadyLoop : List NodeCondition → Bool
  | [] => false
  | condition :: rest =>
    if condition.Typ = NodeReady then
      if condition.Status = ConditionTrue then true else false
    else isReadyLoop rest

/-- The loop over `node.Status.Addresses`: the first address of type `InternalIP`
is appended to `ips` and ends the loop. -/
def appendInternalIP (ips : List String) : List NodeAddress → List String
  | [] => ips
  | addr :: rest =>
    if addr.Typ = NodeInternalIP then ips ++ [addr.Address]
    else appendInternalIP ips rest

/-- The loop of `getNodeIPs` over `nodes.Items`, carrying the slice `ips`. -/
def getNodeIPsLoop (ignoreNotReady : Bool) (ips : List String) : List Node → List String
  | [] => ips
  | node :: rest =>
    if ignoreNotReady ∧ isReadyLoop node.Conditions = false then
      getNodeIPsLoop ignoreNotReady ips rest
    else
      getNodeIPsLoop ignoreNotReady (appendInternalIP ips node.Addresses) rest

/-- Function `getNodeIPs`: list the nodes for the selector, then collect addresses. -/
def getNodeIPs (env : Env) (w : World) (labelKey labelVal : String) (ignoreNotReady : Bool) :
    Except String (List String) × World :=
  let opts := labelSelector labelKey labelVal
  let w1 := { w with calls := w.calls ++ [ApiCall.nodesList opts] }
  match env.listNodes opts with
  | .error err => (.error err, w1)
  | .ok nodes => (.ok (getNodeIPsLoop ignoreNotReady [] nodes), w1)

/-! ## `generateNginxConf` and `reloadNginx` -/

/-- The loop of `generateNginxConf` writing one `server` line per address. -/
def writeServers (port : Int) (builder : String) : List String → String
  | [] => builder
  | ip :: rest =>
    writeServers port (builder ++ ("    server " ++ ip ++ ":" ++ formatD port ++ ";\n")) rest

/-- The text `generateNginxConf` builds before writing it. -/
def renderNginxConf (ips : List String) (port : Int) : String :=
  writeServers port "upstream backend \x7b\n" ips ++ "\x7d\n"

/-- Function `generateNginxConf`: build the text and hand it to `os.WriteFile`. -/
def generateNginxConf (env : Env) (w : World) (path : String) (ips : List String) (port : Int) :
    Option String × World :=
  let data := renderNginxConf ips port
  match env.writeFile path data with
  | .ok => (none, { w with files := fun p => if p = path then some data else w.files p })
  | .failed err after => (some err, { w with files := fun p => if p = path then after else w.files p })

/-- Function `reloadNginx`: run the command and classify the outcome. -/
def reloadNginx (env : Env) (w : World) (cmdArgs : List String) : Option String × World :=
  if cmdArgs.length = 0 then (some "reload command not specified", w)
  else
    let w1 := { w with execs := w.execs ++ [cmdArgs] }
    match env.runCmd cmdArgs with
    | (_, none) => (none, w1)
    | (output, some err) =>
      (some ("reload command failed: " ++ err ++ ", output: " ++ output), w1)

/-! ## `updateNginxConfig` -/

/-- Function `updateNginxConfig`: one reconciliation cycle. -/
def updateNginxConfig (env : Env) (w : World) (cfg : Config) : Option String × World :=
  match getServicePort env w cfg.Namespace cfg.ServiceName cfg.PortName with
  | (.error err, w1) => (some ("getServicePort error: " ++ err), w1)
  | (.ok port, w1) =>
    let w2 := w1.log ("Using port " ++ formatD port ++ " for service " ++ cfg.Namespace
      ++ "/" ++ cfg.ServiceName)
    match getNodeIPs env w2 cfg.NodeLabelKey cfg.NodeLabelVal cfg.IgnoreNotReady with
    | (.error err, w3) => (some ("getNodeIPs error: " ++ err), w3)
    | (.ok ips, w3) =>
      if ips.length = 0 then (some "no nodes found with specified label filter", w3)
      else
        let w4 := w3.log ("Found nodes: " ++ formatStrings ips)
        match generateNginxConf env w4 cfg.NginxConf ips port with
        | (some err, w5) => (some ("generateNginxConf error: " ++ err), w5)
        | (none, w5) =>
          let w6 := w5.log ("Nginx config updated at " ++ cfg.NginxConf)
          match reloadNginx env w6 cfg.ReloadCmd with
          | (some err, w7) => (some ("reloadNginx error: " ++ err), w7)
          | (none, w7) => (none, w7.log "Nginx reloaded successfully")

/-! ## `watchNodes` -/

/-- Control points of `watchNodes`: about to call `Watch` (`disconnected`), waiting in
the retry `select` (`backoff`), waiting in the `select` of `watchLoop` (`watching`),
returned (`terminated`). -/
inductive WatcherState where
  | disconnected
  | backoff
  | watching
  | terminated
deriving DecidableEq, Repr

/-- What the watcher can observe at a control point: the result of `Watch`, the
five second timer, an event received on the result channel (with the answers the
collaborators give during the cycle it triggers), the closed channel, `ctx.Done()`. -/
inductive Stimulus where
  | watchOk
  | watchErr (err : String)
  | timer
  | event (ty : String) (env : Env)
  | chClosed
  | ctxDone

/-- The body of `case event, ok := <-ch` for a received event: log it, run one
cycle, log the cycle error if there is one. -/
def handleEvent (cfg : Config) (w : World) (ty : String) (env : Env) : World :=
  let w1 := w.log ("Node event: " ++ ty)
  match updateNginxConfig env w1 cfg with
  | (some err, w2) => w2.log ("failed to update nginx config: " ++ err)
  | (none, w2) => w2

/-- One transition of `watchNodes`; `none` when the stimulus cannot be observed at
the control point. -/
def watchStep (cfg : Config) : WatcherState → World → Stimulus → Option (WatcherState × World)
  | .disconnected, w, .watchOk =>
    some (.watching,
      World.log { w with calls := w.calls ++ [ApiCall.nodesWatch] }
        "Started watching nodes for changes")
  | .disconnected, w, .watchErr err =>
    some (.backoff,
      World.log { w with calls := w.calls ++ [ApiCall.nodesWatch] }
        ("failed to start node watcher: " ++ err ++ ", retrying in 5s"))
  | .backoff, w, .timer => some (.disconnected, w)
  | .backoff, w, .ctxDone => some (.terminated, w)
  | .watching, w, .event ty env => some (.watching, handleEvent cfg w ty env)
  | .watching, w, .chClosed =>
    some (.disconnected, w.log "Node watch channel closed, restarting watcher")
  | .watching, w, .ctxDone =>
    some (.terminated, w.log "Context cancelled, stopping node watcher")
  | _, _, _ => none

/-- Run the watcher from a control point over a sequence of stimuli. -/
def runWatcher (cfg : Config) : WatcherState × World → List Stimulus → Option (WatcherState × World)
  | sw, [] => some sw
  | (st, w), s :: rest =>
    match watchStep cfg st w s with
    | none => none
    | some sw => runWatcher cfg sw rest

/-- Function `watchNodes`: the watcher started at the top of its outer loop. -/
def watchNodes (cfg : Config) (w : World) (stimuli : List Stimulus) :
    Option (WatcherState × World) :=
  runWatcher cfg (.disconnected, w) stimuli

/-- Number of `Services.Get` requests recorded, one per reconciliation cycle begun. -/
def cyclesBegun (w : World) : Nat :=
  (w.calls.filter (fun c => match c with | .servicesGet _ _ => true | _ => false)).length

/-! ## Reference definitions, written from the specification's wording -/

/-- Specification side: a node's internal network address is the first address of the
internal class, if it has one. -/
def specFirstInternalIP (node : Node) : Option String :=
  (node.Addresses.find? (fun a => decide (a.Typ = NodeInternalIP))).map (fun a => a.Address)

/-- A node passes the readiness gate of `getNodeIPs`. -/
def nodeIncluded (ignoreNotReady : Bool) (node : Node) : Bool :=
  !ignoreNotReady || isReadyLoop node.Conditions

/-- Specification side: the included nodes, each mapped to its internal address,
nodes without one dropped, listing order kept. -/
def specNodeIPs (ignoreNotReady : Bool) (nodes : List Node) : List String :=
  (nodes.filter (nodeIncluded ignoreNotReady)).filterMap specFirstInternalIP

/-- Specification side: the decimal numeral of a port number, independent of the
program's formatting: a minus sign for a negative number, then the base ten digits of
the absolute value, most significant first (`Nat.digits` lists them least significant
first), and the single digit `0` for zero. -/
def specDecimal (n : Int) : String :=
  String.mk ((if n < 0 then [Char.ofNat 45] else []) ++
    (if n.natAbs = 0 then [Char.ofNat 48]
     else (Nat.digits 10 n.natAbs).reverse.map (fun d => Char.ofNat (48 + d))))

/-- Specification side: one upstream member line. -/
def specServerLine (port : Int) (ip : String) : String :=
  "    server " ++ ip ++ ":" ++ specDecimal port ++ ";\n"

/-- Specification side: the artifact is the opening line, one member line per
address in input order, and the closing line. -/
def specNginxConf (ips : List String) (port : Int) : String :=
  "upstream backend \x7b\n" ++ String.join (ips.map (specServerLine port)) ++ "\x7d\n"

/-- A port of the service matches the request. -/
def portMatches (portName : String) (port : ServicePort) : Prop :=
  portName = "" ∨ port.Name = portName

/-- The number `getServicePort` reports for a port. -/
def portValue (port : ServicePort) : Int :=
  if port.NodePort ≠ 0 then port.NodePort else port.Port

/-- Runes that `%q` copies unchanged. -/
def plainRune (isPrintWide : Char → Bool) (c : Char) : Prop :=
  isPrint isPrintWide c = true ∧ c ≠ dquote ∧ c ≠ backslash

/-! ## Sample cluster used to instantiate the statements -/

/-- Service `svc` with port `http` on 8080 and a second port `metrics`. -/
def sampleService : Service :=
  { Ports := [{ Name := "http", Port := 8080, NodePort := 0 },
              { Name := "metrics", Port := 9090, NodePort := 30090 }] }

/-- A Ready node with internal address `10.0.0.1`. -/
def sampleNode1 : Node :=
  { Conditions := [{ Typ := "MemoryPressure", Status := "False" }, { Typ := "Ready", Status := "True" }],
    Addresses := [{ Typ := "Hostname", Address := "node-1" },
                  { Typ := "InternalIP", Address := "10.0.0.1" }] }

/-- A Ready node with internal address `10.0.0.2`. -/
def sampleNode2 : Node :=
  { Conditions := [{ Typ := "Ready", Status := "True" }],
    Addresses := [{ Typ := "InternalIP", Address := "10.0.0.2" }] }

/-- The node `10.0.0.2` reporting NotReady. -/
def sampleNode2NotReady : Node :=
  { Conditions := [{ Typ := "Ready", Status := "False" }],
    Addresses := [{ Typ := "InternalIP", Address := "10.0.0.2" }] }

/-- A cluster answering with `sampleService` and the given nodes; writes succeed and
the reload command answers as given. -/
def sampleEnv (nodes : List Node) (reload : String × Option String) : Env :=
  { getService := fun _ _ => .ok sampleService
    listNodes := fun _ => .ok nodes
    writeFile := fun _ _ => .ok
    runCmd := fun _ => reload
    isPrintWide := fun _ => false }

/-- A cluster whose service has no ports at all. -/
def emptyServiceEnv : Env :=
  { getService := fun _ _ => .ok { Ports := [] }
    listNodes := fun _ => .ok [sampleNode1]
    writeFile := fun _ _ => .ok
    runCmd := fun _ => ("", none)
    isPrintWide := fun _ => false }

/-- A world whose artifact path holds a previous artifact. -/
def sampleWorld : World :=
  { files := fun p => if p = "/etc/nginx/conf.d/upstream.conf" then some "old" else none
    calls := []
    execs := []
    logs := [] }

/-- Configuration of scenario A. -/
def sampleConfig : Config :=
  { Namespace := "ns"
    ServiceName := "svc"
    PortName := "http"
    NginxConf := "/etc/nginx/conf.d/upstream.conf"
    ReloadCmd := ["nginx", "-s", "reload"]
    NodeLabelKey := ""
    NodeLabelVal := ""
    IgnoreNotReady := true }

/-! ## Auxiliary facts -/

theorem contains_refl (s : String) : Contains s s :=
  List.infix_refl _

theorem contains_append_left {s sub : String} (t : String) (h : Contains s sub) :
    Contains (s ++ t) sub := by
  unfold Contains at *
  rw [String.data_append]
  exact h.trans (List.prefix_append _ _).isInfix

theorem contains_append_right {t sub : String} (s : String) (h : Contains t sub) :
    Contains (s ++ t) sub := by
  unfold Contains at *
  rw [String.data_append]
  exact h.trans (List.suffix_append _ _).isInfix

theorem appendEscapedRune_plain (f : Char → Bool) (buf : List Char) (c : Char)
    (h : plainRune f c) : appendEscapedRune f buf c = buf ++ [c] := by
  obtain ⟨hp, hq, hb⟩ := h
  unfold appendEscapedRune
  rw [if_neg (by rintro (h | h) <;> contradiction), if_pos hp]

theorem foldl_appendEscapedRune_plain (f : Char → Bool) (l : List Char) :
    ∀ buf : List Char, (∀ c ∈ l, plainRune f c) →
      l.foldl (appendEscapedRune f) buf = buf ++ l := by
  induction l with
  | nil => intro buf _; simp
  | cons c rest ih =>
    intro buf h
    rw [List.foldl_cons, appendEscapedRune_plain f buf c (h c (List.mem_cons_self _ _)),
      ih _ (fun d hd => h d (List.mem_cons_of_mem _ hd))]
    simp

theorem quote_plain (f : Char → Bool) (s : String) (h : ∀ c ∈ s.data, plainRune f c) :
    (quote f s).data = [dquote] ++ s.data ++ [dquote] := by
  unfold quote
  rw [foldl_appendEscapedRune_plain f s.data [dquote] h]

theorem contains_quote_plain (f : Char → Bool) (s : String)
    (h : ∀ c ∈ s.data, plainRune f c) : Contains (quote f s) s := by
  unfold Contains
  rw [quote_plain f s h]
  exact List.infix_append _ _ _

theorem getServicePortLoop_some (portName : String) (ports : List ServicePort) (p : Int)
    (h : getServicePortLoop portName ports = some p) :
    ∃ pre port post, ports = pre ++ port :: post ∧
      (∀ q ∈ pre, ¬ portMatches portName q) ∧ portMatches portName port ∧
      p = portValue port := by
  induction ports with
  | nil => simp [getServicePortLoop] at h
  | cons x rest ih =>
    unfold getServicePortLoop at h
    by_cases hm : portName = "" ∨ x.Name = portName
    · rw [if_pos hm] at h
      refine ⟨[], x, rest, rfl, by simp, hm, ?_⟩
      unfold portValue
      by_cases hn : x.NodePort ≠ 0
      · rw [if_pos hn] at h ⊢; exact (Option.some.inj h).symm
      · rw [if_neg hn] at h ⊢; exact (Option.some.inj h).symm
    · rw [if_neg hm] at h
      obtain ⟨pre, port, post, hp, hpre, hport, hv⟩ := ih h
      refine ⟨x :: pre, port, post, by rw [hp]; rfl, ?_, hport, hv⟩
      intro q hq
      rcases List.mem_cons.mp hq with rfl | hq
      · exact hm
      · exact hpre q hq

theorem getServicePortLoop_first (portName : String) (pre : List ServicePort)
    (port : ServicePort) (post : List ServicePort)
    (hpre : ∀ q ∈ pre, ¬ portMatches portName q) (hport : portMatches portName port) :
    getServicePortLoop portName (pre ++ port :: post) = some (portValue port) := by
  induction pre with
  | nil =>
    simp only [List.nil_append]
    unfold getServicePortLoop portValue
    have hport2 : portName = "" ∨ port.Name = portName := hport
    rw [if_pos hport2]
    by_cases hn : port.NodePort ≠ 0
    · rw [if_pos hn, if_pos hn]
    · rw [if_neg hn, if_neg hn]
  | cons x rest ih =>
    simp only [List.cons_append]
    unfold getServicePortLoop
    have hx : ¬ (portName = "" ∨ x.Name = portName) := hpre x (List.mem_cons_self _ _)
    rw [if_neg hx]
    exact ih (fun q hq => hpre q (List.mem_cons_of_mem _ hq))

theorem getServicePortLoop_none (portName : String) (ports : List ServicePort) :
    getServicePortLoop portName ports = none ↔ ∀ q ∈ ports, ¬ portMatches portName q := by
  induction ports with
  | nil => simp [getServicePortLoop]
  | cons x rest ih =>
    unfold getServicePortLoop
    by_cases hm : portName = "" ∨ x.Name = portName
    · rw [if_pos hm]
      constructor
      · intro h; split at h <;> simp at h
      · intro h; exact absurd hm (h x (List.mem_cons_self _ _))
    · rw [if_neg hm, ih]
      constructor
      · intro h q hq
        rcases List.mem_cons.mp hq with rfl | hq
        · exact hm
        · exact h q hq
      · intro h q hq; exact h q (List.mem_cons_of_mem _ hq)

theorem getServicePort_fst (env : Env) (w : World) (nspace svcName portName : String)
    (svc : Service) (hfetch : env.getService nspace svcName = .ok svc) :
    (getServicePort env w nspace svcName portName).1 =
      match getServicePortLoop portName svc.Ports with
      | some p => .ok p
      | none => .error (portNotFound env nspace svcName portName) := by
  unfold getServicePort
  simp only [hfetch]
  cases getServicePortLoop portName svc.Ports <;> rfl

theorem getServicePort_snd (env : Env) (w : World) (nspace svcName portName : String) :
    (getServicePort env w nspace svcName portName).2 =
      { w with calls := w.calls ++ [ApiCall.servicesGet nspace svcName] } := by
  unfold getServicePort
  cases env.getService nspace svcName with
  | error e => rfl
  | ok svc => simp only; cases getServicePortLoop portName svc.Ports <;> rfl

theorem appendInternalIP_eq (ips : List String) (addrs : List NodeAddress) :
    appendInternalIP ips addrs =
      ips ++ ((addrs.find? (fun a => decide (a.Typ = NodeInternalIP))).map
        (fun a => a.Address)).toList := by
  induction addrs with
  | nil => simp [appendInternalIP]
  | cons a rest ih =>
    unfold appendInternalIP
    by_cases h : a.Typ = NodeInternalIP
    · rw [if_pos h]; simp [List.find?, h]
    · rw [if_neg h, ih]; simp [List.find?, h]

theorem getNodeIPsLoop_eq (ignoreNotReady : Bool) (nodes : List Node) :
    ∀ ips : List String,
      getNodeIPsLoop ignoreNotReady ips nodes = ips ++ specNodeIPs ignoreNotReady nodes := by
  induction nodes with
  | nil => intro ips; simp [getNodeIPsLoop, specNodeIPs]
  | cons node rest ih =>
    intro ips
    unfold getNodeIPsLoop
    by_cases h : ignoreNotReady = true ∧ isReadyLoop node.Conditions = false
    · rw [if_pos h, ih]
      have hinc : nodeIncluded ignoreNotReady node = false := by
        simp [nodeIncluded, h.1, h.2]
      simp [specNodeIPs, List.filter_cons, hinc]
    · rw [if_neg h, ih, appendInternalIP_eq]
      have hinc : nodeIncluded ignoreNotReady node = true := by
        unfold nodeIncluded
        cases ignoreNotReady <;> cases hr : isReadyLoop node.Conditions <;> simp_all
      simp only [specNodeIPs, List.filter_cons, hinc, if_true, List.filterMap_cons]
      unfold specFirstInternalIP
      cases (node.Addresses.find? (fun a => decide (a.Typ = NodeInternalIP))) <;> simp

theorem specNodeIPs_append (ignoreNotReady : Bool) (xs ys : List Node) :
    specNodeIPs ignoreNotReady (xs ++ ys) =
      specNodeIPs ignoreNotReady xs ++ specNodeIPs ignoreNotReady ys := by
  simp [specNodeIPs, List.filter_append, List.filterMap_append]

theorem isReadyLoop_true (conds : List NodeCondition) (h : isReadyLoop conds = true) :
    ∃ c ∈ conds, c.Typ = NodeReady ∧ c.Status = ConditionTrue := by
  induction conds with
  | nil => simp [isReadyLoop] at h
  | cons c rest ih =>
    unfold isReadyLoop at h
    by_cases ht : c.Typ = NodeReady
    · rw [if_pos ht] at h
      by_cases hs : c.Status = ConditionTrue
      · exact ⟨c, List.mem_cons_self _ _, ht, hs⟩
      · rw [if_neg hs] at h; cases h
    · rw [if_neg ht] at h
      obtain ⟨d, hd, h1, h2⟩ := ih h
      exact ⟨d, List.mem_cons_of_mem _ hd, h1, h2⟩

theorem isReadyLoop_no_ready (conds : List NodeCondition)
    (h : ∀ c ∈ conds, c.Typ ≠ NodeReady) : isReadyLoop conds = false := by
  induction conds with
  | nil => rfl
  | cons c rest ih =>
    unfold isReadyLoop
    rw [if_neg (h c (List.mem_cons_self _ _))]
    exact ih (fun d hd => h d (List.mem_cons_of_mem _ hd))

theorem specFirstInternalIP_some (node : Node) (ip : String)
    (h : specFirstInternalIP node = some ip) :
    ∃ a ∈ node.Addresses, a.Typ = NodeInternalIP ∧ a.Address = ip := by
  unfold specFirstInternalIP at h
  cases hf : node.Addresses.find? (fun a => decide (a.Typ = NodeInternalIP)) with
  | none => rw [hf] at h; cases h
  | some a =>
    rw [hf] at h
    refine ⟨a, List.mem_of_find?_eq_some hf, ?_, by simpa using h⟩
    simpa using List.find?_some hf

theorem getNodeIPs_fst (env : Env) (w : World) (labelKey labelVal : String)
    (ignoreNotReady : Bool) :
    (getNodeIPs env w labelKey labelVal ignoreNotReady).1 =
      (env.listNodes (labelSelector labelKey labelVal)).map
        (getNodeIPsLoop ignoreNotReady []) := by
  unfold getNodeIPs
  dsimp only
  cases env.listNodes (labelSelector labelKey labelVal) <;> rfl

theorem getNodeIPs_snd (env : Env) (w : World) (labelKey labelVal : String)
    (ignoreNotReady : Bool) :
    (getNodeIPs env w labelKey labelVal ignoreNotReady).2 =
      { w with calls := w.calls ++ [ApiCall.nodesList (labelSelector labelKey labelVal)] } := by
  unfold getNodeIPs
  dsimp only
  cases env.listNodes (labelSelector labelKey labelVal) <;> rfl

theorem getNodeIPs_ok (env : Env) (w : World) (labelKey labelVal : String)
    (ignoreNotReady : Bool) (nodes : List Node)
    (hlist : env.listNodes (labelSelector labelKey labelVal) = .ok nodes) :
    (getNodeIPs env w labelKey labelVal ignoreNotReady).1 =
      .ok (specNodeIPs ignoreNotReady nodes) := by
  rw [getNodeIPs_fst, hlist]
  show Except.ok (getNodeIPsLoop ignoreNotReady [] nodes) = _
  rw [getNodeIPsLoop_eq]; rfl

theorem digitChar_eq (d : Nat) (h : d < 10) : Nat.digitChar d = Char.ofNat (48 + d) := by
  interval_cases d <;> rfl

theorem toDigitsCore_eq (fuel : Nat) :
    ∀ (n : Nat) (ds : List Char), 0 < n → n < fuel →
      Nat.toDigitsCore 10 fuel n ds =
        (Nat.digits 10 n).reverse.map (fun d => Char.ofNat (48 + d)) ++ ds := by
  induction fuel with
  | zero => intro n ds _ h; omega
  | succ fuel ih =>
    intro n ds hpos hlt
    unfold Nat.toDigitsCore
    simp only
    rw [Nat.digits_def' (by norm_num) hpos, List.reverse_cons, List.map_append,
      List.map_singleton, ← digitChar_eq (n % 10) (Nat.mod_lt _ (by norm_num))]
    by_cases hz : n / 10 = 0
    · rw [if_pos hz, hz]; simp
    · rw [if_neg hz, ih (n / 10) _ (Nat.pos_of_ne_zero hz) (by omega)]
      simp

theorem toDigits_eq (m : Nat) :
    Nat.toDigits 10 m =
      if m = 0 then [Char.ofNat 48]
      else (Nat.digits 10 m).reverse.map (fun d => Char.ofNat (48 + d)) := by
  unfold Nat.toDigits
  by_cases hm : m = 0
  · subst hm; rfl
  · rw [if_neg hm, toDigitsCore_eq (m + 1) m [] (Nat.pos_of_ne_zero hm) (by omega)]
    simp

theorem formatD_eq_specDecimal (n : Int) : formatD n = specDecimal n := by
  apply String.ext
  unfold formatD specDecimal
  by_cases hn : n < 0
  · rw [if_pos hn, if_pos hn, String.data_append]
    show [Char.ofNat 45] ++ (Nat.toDigits 10 n.natAbs) = _
    rw [toDigits_eq]
  · rw [if_neg hn, if_neg hn]
    show Nat.toDigits 10 n.natAbs = _
    rw [toDigits_eq]; rfl

theorem writeServers_data (port : Int) (ips : List String) :
    ∀ builder : String,
      (writeServers port builder ips).data =
        builder.data ++ ((ips.map (specServerLine port)).map String.data).flatten := by
  induction ips with
  | nil => intro builder; simp [writeServers]
  | cons ip rest ih =>
    intro builder
    unfold writeServers
    rw [ih]
    simp [specServerLine, formatD_eq_specDecimal, String.data_append, List.append_assoc]

theorem renderNginxConf_eq (ips : List String) (port : Int) :
    renderNginxConf ips port = specNginxConf ips port := by
  apply String.ext
  unfold renderNginxConf specNginxConf
  rw [String.data_append, writeServers_data, String.data_append, String.data_append,
    String.data_join]

theorem generateNginxConf_ok (env : Env) (w : World) (path : String) (ips : List String)
    (port : Int) (hwrite : env.writeFile path (renderNginxConf ips port) = .ok) :
    generateNginxConf env w path ips port =
      (none, { w with files := fun p => if p = path then some (renderNginxConf ips port)
                                        else w.files p }) := by
  unfold generateNginxConf
  dsimp only
  rw [hwrite]

theorem generateNginxConf_failed (env : Env) (w : World) (path : String) (ips : List String)
    (port : Int) (err : String) (after : Option String)
    (hwrite : env.writeFile path (renderNginxConf ips port) = .failed err after) :
    generateNginxConf env w path ips port =
      (some err, { w with files := fun p => if p = path then after else w.files p }) := by
  unfold generateNginxConf
  dsimp only
  rw [hwrite]

theorem reloadNginx_failed (env : Env) (w : World) (cmdArgs : List String)
    (out err : String) (hne : cmdArgs ≠ [])
    (hrun : env.runCmd cmdArgs = (out, some err)) :
    reloadNginx env w cmdArgs =
      (some ("reload command failed: " ++ err ++ ", output: " ++ out),
        { w with execs := w.execs ++ [cmdArgs] }) := by
  unfold reloadNginx
  have hlen : ¬ cmdArgs.length = 0 := by
    intro h; exact hne (List.length_eq_zero.mp h)
  rw [if_neg hlen]
  dsimp only
  rw [hrun]

theorem updateNginxConfig_port_error (env : Env) (w : World) (cfg : Config) (e : String)
    (h : (getServicePort env w cfg.Namespace cfg.ServiceName cfg.PortName).1 = .error e) :
    updateNginxConfig env w cfg =
      (some ("getServicePort error: " ++ e),
        { w with calls := w.calls ++ [ApiCall.servicesGet cfg.Namespace cfg.ServiceName] }) := by
  have h2 := getServicePort_snd env w cfg.Namespace cfg.ServiceName cfg.PortName
  unfold updateNginxConfig
  rcases hg : getServicePort env w cfg.Namespace cfg.ServiceName cfg.PortName with ⟨r, w1⟩
  rw [hg] at h h2
  dsimp only at h h2
  subst h h2
  rfl

/-- The world in which `updateNginxConfig` calls `getNodeIPs`. -/
theorem updateNginxConfig_port_ok (env : Env) (w : World) (cfg : Config) (port : Int)
    (h : (getServicePort env w cfg.Namespace cfg.ServiceName cfg.PortName).1 = .ok port) :
    updateNginxConfig env w cfg =
      match getNodeIPs env
        (World.log { w with calls := w.calls ++ [ApiCall.servicesGet cfg.Namespace cfg.ServiceName] }
          ("Using port " ++ formatD port ++ " for service " ++ cfg.Namespace
            ++ "/" ++ cfg.ServiceName))
        cfg.NodeLabelKey cfg.NodeLabelVal cfg.IgnoreNotReady with
      | (.error err, w3) => (some ("getNodeIPs error: " ++ err), w3)
      | (.ok ips, w3) =>
        if ips.length = 0 then (some "no nodes found with specified label filter", w3)
        else
          match generateNginxConf env (w3.log ("Found nodes: " ++ formatStrings ips))
              cfg.NginxConf ips port with
          | (some err, w5) => (some ("generateNginxConf error: " ++ err), w5)
          | (none, w5) =>
            match reloadNginx env (w5.log ("Nginx config updated at " ++ cfg.NginxConf))
                cfg.ReloadCmd with
            | (some err, w7) => (some ("reloadNginx error: " ++ err), w7)
            | (none, w7) => (none, w7.log "Nginx reloaded successfully") := by
  have h2 := getServicePort_snd env w cfg.Namespace cfg.ServiceName cfg.PortName
  unfold updateNginxConfig
  rcases hg : getServicePort env w cfg.Namespace cfg.ServiceName cfg.PortName with ⟨r, w1⟩
  rw [hg] at h h2
  dsimp only at h h2
  subst h h2
  rfl

theorem getNodeIPs_pair (env : Env) (w : World) (labelKey labelVal : String)
    (ignoreNotReady : Bool) :
    getNodeIPs env w labelKey labelVal ignoreNotReady =
      ((env.listNodes (labelSelector labelKey labelVal)).map
          (getNodeIPsLoop ignoreNotReady []),
        { w with calls := w.calls ++ [ApiCall.nodesList (labelSelector labelKey labelVal)] }) := by
  rw [← getNodeIPs_fst env w, ← getNodeIPs_snd env w labelKey labelVal ignoreNotReady]

theorem generateNginxConf_calls (env : Env) (w : World) (path : String)
    (ips : List String) (port : Int) :
    (generateNginxConf env w path ips port).2.calls = w.calls := by
  unfold generateNginxConf
  dsimp only
  cases env.writeFile path (renderNginxConf ips port) <;> rfl

theorem reloadNginx_calls (env : Env) (w : World) (cmdArgs : List String) :
    (reloadNginx env w cmdArgs).2.calls = w.calls := by
  unfold reloadNginx
  by_cases h : cmdArgs.length = 0
  · rw [if_pos h]
  · rw [if_neg h]
    dsimp only
    rcases env.runCmd cmdArgs with ⟨out, _ | err⟩ <;> rfl

theorem updateNginxConfig_calls (env : Env) (w : World) (cfg : Config) :
    (updateNginxConfig env w cfg).2.calls =
        w.calls ++ [ApiCall.servicesGet cfg.Namespace cfg.ServiceName] ∨
    (updateNginxConfig env w cfg).2.calls =
        w.calls ++ [ApiCall.servicesGet cfg.Namespace cfg.ServiceName] ++
          [ApiCall.nodesList (labelSelector cfg.NodeLabelKey cfg.NodeLabelVal)] := by
  cases hp : (getServicePort env w cfg.Namespace cfg.ServiceName cfg.PortName).1 with
  | error e =>
    left
    rw [updateNginxConfig_port_error env w cfg e hp]
  | ok port =>
    right
    rw [updateNginxConfig_port_ok env w cfg port hp, getNodeIPs_pair]
    cases env.listNodes (labelSelector cfg.NodeLabelKey cfg.NodeLabelVal) with
    | error e => rfl
    | ok nodes =>
      simp only [Except.map]
      by_cases hz : (getNodeIPsLoop cfg.IgnoreNotReady [] nodes).length = 0
      · rw [if_pos hz]; rfl
      · rw [if_neg hz]
        generalize hw4 : World.log _ ("Found nodes: " ++ _) = w4
        have hc4 : w4.calls = w.calls ++ [ApiCall.servicesGet cfg.Namespace cfg.ServiceName]
            ++ [ApiCall.nodesList (labelSelector cfg.NodeLabelKey cfg.NodeLabelVal)] := by
          rw [← hw4]; rfl
        have hgc := generateNginxConf_calls env w4 cfg.NginxConf
          (getNodeIPsLoop cfg.IgnoreNotReady [] nodes) port
        rcases hgen : generateNginxConf env w4 cfg.NginxConf
          (getNodeIPsLoop cfg.IgnoreNotReady [] nodes) port with ⟨r, w5⟩
        rw [hgen] at hgc
        dsimp only at hgc
        cases r with
        | some err => dsimp only; rw [hgc, hc4]
        | none =>
          dsimp only
          have hrc := reloadNginx_calls env
            (w5.log ("Nginx config updated at " ++ cfg.NginxConf)) cfg.ReloadCmd
          rcases hrel : reloadNginx env
            (w5.log ("Nginx config updated at " ++ cfg.NginxConf)) cfg.ReloadCmd with ⟨r2, w7⟩
          rw [hrel] at hrc
          dsimp only at hrc
          have hc7 : w7.calls = w.calls ++ [ApiCall.servicesGet cfg.Namespace cfg.ServiceName]
              ++ [ApiCall.nodesList (labelSelector cfg.NodeLabelKey cfg.NodeLabelVal)] := by
            rw [hrc, ← hc4, ← hgc]; rfl
          cases r2 with
          | some err => dsimp only; exact hc7
          | none => dsimp only; exact hc7

theorem cyclesBegun_updateNginxConfig (env : Env) (w : World) (cfg : Config) :
    cyclesBegun (updateNginxConfig env w cfg).2 = cyclesBegun w + 1 := by
  unfold cyclesBegun
  rcases updateNginxConfig_calls env w cfg with h | h <;> rw [h] <;> simp

theorem cyclesBegun_handleEvent (cfg : Config) (w : World) (ty : String) (env : Env) :
    cyclesBegun (handleEvent cfg w ty env) = cyclesBegun w + 1 := by
  have h := cyclesBegun_updateNginxConfig env (w.log ("Node event: " ++ ty)) cfg
  unfold handleEvent
  dsimp only
  rcases hu : updateNginxConfig env (w.log ("Node event: " ++ ty)) cfg with ⟨r, w2⟩
  rw [hu] at h
  cases r with
  | some err => exact h
  | none => exact h

theorem cyclesBegun_foldl (cfg : Config) (events : List (String × Env)) :
    ∀ w : World,
      cyclesBegun (events.foldl (fun w e => handleEvent cfg w e.1 e.2) w) =
        cyclesBegun w + events.length := by
  induction events with
  | nil => intro w; rfl
  | cons e rest ih =>
    intro w
    rw [List.foldl_cons, ih, cyclesBegun_handleEvent, List.length_cons]
    omega

theorem runWatcher_events (cfg : Config) (events : List (String × Env)) :
    ∀ w : World,
      runWatcher cfg (.watching, w) (events.map (fun e => Stimulus.event e.1 e.2)) =
        some (.watching, events.foldl (fun w e => handleEvent cfg w e.1 e.2) w) := by
  induction events with
  | nil => intro w; rfl
  | cons e rest ih =>
    intro w
    rw [List.map_cons, List.foldl_cons]
    unfold runWatcher
    simp only [watchStep]
    exact ih _

/-! ## Settled claims -/

/-- C1: when the fetch of the service succeeds and `getServicePort` returns a port
number, the declared ports split as `pre ++ port :: post` where no port of `pre` has
the requested name (and `pre` is empty when no name is requested), `port` has the
requested name when one is requested, and the number returned is `port.NodePort` when
that is non-zero and `port.Port` otherwise; whatever ports follow `port`, the result
is the same. -/
theorem getServicePort_first_match (env : Env) (w : World)
    (nspace svcName portName : String) (svc : Service) (p : Int)
    (hfetch : env.getService nspace svcName = .ok svc)
    (hok : (getServicePort env w nspace svcName portName).1 = .ok p) :
    ∃ pre port post, svc.Ports = pre ++ port :: post ∧
      (∀ q ∈ pre, q.Name ≠ portName) ∧
      (portName = "" → pre = []) ∧
      (portName ≠ "" → port.Name = portName) ∧
      p = (if port.NodePort ≠ 0 then port.NodePort else port.Port) ∧
      ∀ (env2 : Env) (w2 : World) (later : List ServicePort),
        env2.getService nspace svcName = .ok { Ports := pre ++ port :: later } →
        (getServicePort env2 w2 nspace svcName portName).1 = .ok p := by
  rw [getServicePort_fst env w nspace svcName portName svc hfetch] at hok
  cases hl : getServicePortLoop portName svc.Ports with
  | none => rw [hl] at hok; cases hok
  | some v =>
    rw [hl] at hok
    have hv : v = p := by injection hok
    subst hv
    obtain ⟨pre, port, post, hsplit, hpre, hport, hval⟩ :=
      getServicePortLoop_some portName svc.Ports v hl
    refine ⟨pre, port, post, hsplit, ?_, ?_, ?_, hval, ?_⟩
    · intro q hq hname; exact hpre q hq (Or.inr hname)
    · intro hempty
      cases pre with
      | nil => rfl
      | cons q rest => exact absurd (Or.inl hempty) (hpre q (List.mem_cons_self _ _))
    · intro hne
      rcases hport with h | h
      · exact absurd h hne
      · exact h
    · intro env2 w2 later hfetch2
      rw [getServicePort_fst env2 w2 nspace svcName portName _ hfetch2]
      simp only [getServicePortLoop_first portName pre port later hpre hport, hval]

/-- Instance of C1: scenario A, port `http` resolves to 8080 although a later port
is declared. -/
theorem getServicePort_first_match_witness :
    (sampleEnv [] ("", none)).getService "ns" "svc" = .ok sampleService ∧
    (getServicePort (sampleEnv [] ("", none)) sampleWorld "ns" "svc" "http").1 = .ok 8080 ∧
    ∃ pre port post, sampleService.Ports = pre ++ port :: post ∧
      (∀ q ∈ pre, q.Name ≠ "http") ∧
      ("http" = "" → pre = []) ∧
      ("http" ≠ "" → port.Name = "http") ∧
      (8080 : Int) = (if port.NodePort ≠ 0 then port.NodePort else port.Port) ∧
      ∀ (env2 : Env) (w2 : World) (later : List ServicePort),
        env2.getService "ns" "svc" = .ok { Ports := pre ++ port :: later } →
        (getServicePort env2 w2 "ns" "svc" "http").1 = .ok 8080 :=
  ⟨rfl, rfl,
    getServicePort_first_match (sampleEnv [] ("", none)) sampleWorld "ns" "svc" "http"
      sampleService 8080 rfl rfl⟩

/-- C2 (as stated, refuted): with a service that declares no port and the requested
name `a"b`, `getServicePort` fails with the text `port "a\"b" not found in service
ns/svc`, in which the requested name `a"b` does not occur. -/
theorem getServicePort_error_text_escapes :
    emptyServiceEnv.getService "ns" "svc" = .ok { Ports := [] } ∧
    (getServicePort emptyServiceEnv sampleWorld "ns" "svc" "a\x22b").1 =
      .error "port \x22a\x5c\x22b\x22 not found in service ns/svc" ∧
    ¬ Contains "port \x22a\x5c\x22b\x22 not found in service ns/svc" "a\x22b" := by
  refine ⟨rfl, rfl, by decide⟩

/-- C2 (amended): when the fetch succeeds, `getServicePort` fails exactly when no
declared port matches the request; the error text is then
`port <q> not found in service <namespace>/<service>` with `<q>` the requested name
as printed by `%q`; it contains the namespace, the service name and the quoted name,
and it contains the requested name itself whenever every rune of the name is
printable and is neither a double quote nor a backslash. -/
theorem getServicePort_not_found (env : Env) (w : World)
    (nspace svcName portName : String) (svc : Service)
    (hfetch : env.getService nspace svcName = .ok svc) :
    ((∃ msg, (getServicePort env w nspace svcName portName).1 = .error msg) ↔
      ((portName ≠ "" → ∀ q ∈ svc.Ports, q.Name ≠ portName) ∧
       (portName = "" → svc.Ports = []))) ∧
    (∀ msg, (getServicePort env w nspace svcName portName).1 = .error msg →
      msg = "port " ++ quote env.isPrintWide portName ++ " not found in service "
        ++ nspace ++ "/" ++ svcName ∧
      Contains msg (quote env.isPrintWide portName) ∧
      Contains msg nspace ∧ Contains msg svcName ∧
      ((∀ c ∈ portName.data,
          isPrint env.isPrintWide c = true ∧ c ≠ dquote ∧ c ≠ backslash) →
        Contains msg portName)) := by
  rw [getServicePort_fst env w nspace svcName portName svc hfetch]
  have hnone := getServicePortLoop_none portName svc.Ports
  constructor
  · constructor
    · rintro ⟨msg, hmsg⟩
      cases hl : getServicePortLoop portName svc.Ports with
      | some v => rw [hl] at hmsg; cases hmsg
      | none =>
        have hall := hnone.mp hl
        constructor
        · intro _ q hq hname; exact hall q hq (Or.inr hname)
        · intro hempty
          cases hp : svc.Ports with
          | nil => rfl
          | cons q rest =>
            exact absurd (Or.inl hempty) (hall q (by rw [hp]; exact List.mem_cons_self _ _))
    · rintro ⟨h1, h2⟩
      have hl : getServicePortLoop portName svc.Ports = none := by
        rw [hnone]
        intro q hq hm
        rcases hm with hm | hm
        · rw [h2 hm] at hq; cases hq
        · by_cases he : portName = ""
          · rw [h2 he] at hq; cases hq
          · exact h1 he q hq hm
      rw [hl]; exact ⟨_, rfl⟩
  · intro msg hmsg
    cases hl : getServicePortLoop portName svc.Ports with
    | some v => rw [hl] at hmsg; cases hmsg
    | none =>
      rw [hl] at hmsg
      have hm : msg = portNotFound env nspace svcName portName := by
        injection hmsg with h; exact h.symm
      subst hm
      unfold portNotFound
      have hq : Contains ("port " ++ quote env.isPrintWide portName)
          (quote env.isPrintWide portName) :=
        contains_append_right _ (contains_refl _)
      refine ⟨rfl, ?_, ?_, ?_, ?_⟩
      · exact contains_append_left _ (contains_append_left _ (contains_append_left _
          (contains_append_left _ hq)))
      · exact contains_append_left _ (contains_append_left _
          (contains_append_right _ (contains_refl _)))
      · exact contains_append_right _ (contains_refl _)
      · intro hplain
        have hin : Contains ("port " ++ quote env.isPrintWide portName) portName :=
          contains_append_right _ (contains_quote_plain env.isPrintWide portName hplain)
        exact contains_append_left _ (contains_append_left _ (contains_append_left _
          (contains_append_left _ hin)))

/-- Instance of C2 (amended): scenario C asked of a service without ports. -/
theorem getServicePort_not_found_witness :
    emptyServiceEnv.getService "ns" "svc" = .ok { Ports := [] } ∧
    (getServicePort emptyServiceEnv sampleWorld "ns" "svc" "http").1 =
      .error "port \x22http\x22 not found in service ns/svc" ∧
    (((∃ msg, (getServicePort emptyServiceEnv sampleWorld "ns" "svc" "http").1
          = .error msg) ↔
      (("http" ≠ "" → ∀ q ∈ ([] : List ServicePort), q.Name ≠ "http") ∧
       ("http" = "" → ([] : List ServicePort) = []))) ∧
    (∀ msg, (getServicePort emptyServiceEnv sampleWorld "ns" "svc" "http").1
        = .error msg →
      msg = "port " ++ quote emptyServiceEnv.isPrintWide "http" ++ " not found in service "
        ++ "ns" ++ "/" ++ "svc" ∧
      Contains msg (quote emptyServiceEnv.isPrintWide "http") ∧
      Contains msg "ns" ∧ Contains msg "svc" ∧
      ((∀ c ∈ "http".data,
          isPrint emptyServiceEnv.isPrintWide c = true ∧ c ≠ dquote ∧ c ≠ backslash) →
        Contains msg "http"))) :=
  ⟨rfl, rfl,
    getServicePort_not_found emptyServiceEnv sampleWorld "ns" "svc" "http"
      { Ports := [] } rfl⟩

/-- C3: with readiness filtering enabled, every address `getNodeIPs` returns is an
`InternalIP` address of a listed node that has a condition of type `Ready` with status
`True`; and a listed node without any `Ready` condition contributes nothing: the
result is the one obtained from the listing without that node. -/
theorem getNodeIPs_ready_only (env : Env) (w : World) (labelKey labelVal : String)
    (nodes : List Node) (ips : List String)
    (hlist : env.listNodes (labelSelector labelKey labelVal) = .ok nodes)
    (hok : (getNodeIPs env w labelKey labelVal true).1 = .ok ips) :
    (∀ ip ∈ ips, ∃ node ∈ nodes,
      (∃ c ∈ node.Conditions, c.Typ = NodeReady ∧ c.Status = ConditionTrue) ∧
      (∃ a ∈ node.Addresses, a.Typ = NodeInternalIP ∧ a.Address = ip)) ∧
    (∀ pre node post, nodes = pre ++ node :: post →
      (∀ c ∈ node.Conditions, c.Typ ≠ NodeReady) →
      ips = getNodeIPsLoop true [] (pre ++ post)) := by
  rw [getNodeIPs_ok env w labelKey labelVal true nodes hlist] at hok
  have hips : ips = specNodeIPs true nodes := by injection hok with h; exact h.symm
  subst hips
  constructor
  · intro ip hip
    unfold specNodeIPs at hip
    obtain ⟨node, hnode, hfirst⟩ := List.mem_filterMap.mp hip
    obtain ⟨hmem, hinc⟩ := List.mem_filter.mp hnode
    have hready : isReadyLoop node.Conditions = true := by
      simpa [nodeIncluded] using hinc
    exact ⟨node, hmem, isReadyLoop_true _ hready, specFirstInternalIP_some node ip hfirst⟩
  · intro pre node post hsplit hnone
    rw [getNodeIPsLoop_eq, hsplit, List.nil_append, specNodeIPs_append, specNodeIPs_append]
    have hdrop : specNodeIPs true (node :: post) = specNodeIPs true post := by
      have hinc : nodeIncluded true node = false := by
        simp [nodeIncluded, isReadyLoop_no_ready _ hnone]
      simp [specNodeIPs, List.filter_cons, hinc]
    rw [hdrop]

/-- Instance of C3: scenario B, `10.0.0.1` Ready and `10.0.0.2` NotReady give exactly
`10.0.0.1`. -/
theorem getNodeIPs_ready_only_witness :
    (getNodeIPs (sampleEnv [sampleNode1, sampleNode2NotReady] ("", none)) sampleWorld
        "" "" true).1 = .ok ["10.0.0.1"] ∧
    ((∀ ip ∈ ["10.0.0.1"], ∃ node ∈ [sampleNode1, sampleNode2NotReady],
      (∃ c ∈ node.Conditions, c.Typ = NodeReady ∧ c.Status = ConditionTrue) ∧
      (∃ a ∈ node.Addresses, a.Typ = NodeInternalIP ∧ a.Address = ip)) ∧
    (∀ pre node post, [sampleNode1, sampleNode2NotReady] = pre ++ node :: post →
      (∀ c ∈ node.Conditions, c.Typ ≠ NodeReady) →
      ["10.0.0.1"] = getNodeIPsLoop true [] (pre ++ post))) :=
  ⟨rfl,
    getNodeIPs_ready_only (sampleEnv [sampleNode1, sampleNode2NotReady] ("", none))
      sampleWorld "" "" [sampleNode1, sampleNode2NotReady] ["10.0.0.1"] rfl rfl⟩

/-- C4: when the listing succeeds, `getNodeIPs` succeeds and returns, in listing
order, for each node that passes the readiness gate the first address of type
`InternalIP` in the node's address order, and nothing for a node without such an
address; the result has at most one entry per listed node. -/
theorem getNodeIPs_first_internal (env : Env) (w : World) (labelKey labelVal : String)
    (ignoreNotReady : Bool) (nodes : List Node)
    (hlist : env.listNodes (labelSelector labelKey labelVal) = .ok nodes) :
    (getNodeIPs env w labelKey labelVal ignoreNotReady).1 =
      .ok ((nodes.filter (nodeIncluded ignoreNotReady)).filterMap specFirstInternalIP) ∧
    ((nodes.filter (nodeIncluded ignoreNotReady)).filterMap specFirstInternalIP).length
      ≤ nodes.length ∧
    (∀ pre node post, nodes = pre ++ node :: post →
      getNodeIPsLoop ignoreNotReady [] nodes =
        getNodeIPsLoop ignoreNotReady [] pre ++
          (if nodeIncluded ignoreNotReady node = true
            then (specFirstInternalIP node).toList else []) ++
          getNodeIPsLoop ignoreNotReady [] post) := by
  refine ⟨getNodeIPs_ok env w labelKey labelVal ignoreNotReady nodes hlist, ?_, ?_⟩
  · exact le_trans (List.length_filterMap_le _ _) (List.length_filter_le _ _)
  · intro pre node post hsplit
    rw [getNodeIPsLoop_eq, getNodeIPsLoop_eq, getNodeIPsLoop_eq, hsplit]
    simp only [List.nil_append]
    rw [specNodeIPs_append, List.append_assoc]
    congr 1
    have hcons : specNodeIPs ignoreNotReady (node :: post) =
        specNodeIPs ignoreNotReady [node] ++ specNodeIPs ignoreNotReady post :=
      specNodeIPs_append ignoreNotReady [node] post
    rw [hcons]
    congr 1
    by_cases hinc : nodeIncluded ignoreNotReady node = true
    · rw [if_pos hinc]
      cases hf : specFirstInternalIP node <;>
        simp [specNodeIPs, List.filter_cons, hinc, hf]
    · rw [if_neg hinc]
      simp [specNodeIPs, List.filter_cons, hinc]

/-- Instance of C4: a node with two internal addresses and a node with none. -/
theorem getNodeIPs_first_internal_witness :
    (getNodeIPs (sampleEnv
        [{ Conditions := [], Addresses := [{ Typ := "ExternalIP", Address := "1.2.3.4" }] },
         { Conditions := [], Addresses := [{ Typ := "InternalIP", Address := "10.0.0.7" },
                                           { Typ := "InternalIP", Address := "10.0.0.8" }] },
         sampleNode1] ("", none)) sampleWorld "" "" false).1
      = .ok ["10.0.0.7", "10.0.0.1"] ∧
    ((getNodeIPs (sampleEnv [sampleNode1, sampleNode2] ("", none)) sampleWorld
        "" "" false).1 =
      .ok (([sampleNode1, sampleNode2].filter (nodeIncluded false)).filterMap
        specFirstInternalIP) ∧
    (([sampleNode1, sampleNode2].filter (nodeIncluded false)).filterMap
        specFirstInternalIP).length ≤ [sampleNode1, sampleNode2].length ∧
    (∀ pre node post, [sampleNode1, sampleNode2] = pre ++ node :: post →
      getNodeIPsLoop false [] [sampleNode1, sampleNode2] =
        getNodeIPsLoop false [] pre ++
          (if nodeIncluded false node = true
            then (specFirstInternalIP node).toList else []) ++
          getNodeIPsLoop false [] post)) :=
  ⟨rfl,
    getNodeIPs_first_internal (sampleEnv [sampleNode1, sampleNode2] ("", none))
      sampleWorld "" "" false [sampleNode1, sampleNode2] rfl⟩

/-- C5: `getNodeIPs` sends exactly one request, a node listing whose label selector
is `key=value` when key and value are both non-empty, the bare key when only the key
is non-empty, and the empty selector when neither is given; its result is what the
listing for that selector answers, passed through the node loop. -/
theorem getNodeIPs_label_selector (env : Env) (w : World) (labelKey labelVal : String)
    (ignoreNotReady : Bool) :
    ∃ sel : String,
      (getNodeIPs env w labelKey labelVal ignoreNotReady).2.calls =
        w.calls ++ [ApiCall.nodesList sel] ∧
      (getNodeIPs env w labelKey labelVal ignoreNotReady).1 =
        (env.listNodes sel).map (getNodeIPsLoop ignoreNotReady []) ∧
      (labelKey ≠ "" → labelVal ≠ "" → sel = labelKey ++ "=" ++ labelVal) ∧
      (labelKey ≠ "" → labelVal = "" → sel = labelKey) ∧
      (labelKey = "" → labelVal = "" → sel = "") := by
  refine ⟨labelSelector labelKey labelVal, ?_, getNodeIPs_fst _ _ _ _ _, ?_, ?_, ?_⟩
  · rw [getNodeIPs_snd]
  · intro hk hv; unfold labelSelector; rw [if_pos hk, if_pos hv]
  · intro hk hv; unfold labelSelector; rw [if_pos hk, if_neg (not_not.mpr hv)]
  · intro hk _; unfold labelSelector; rw [if_neg (not_not.mpr hk)]

/-- C6: when the write succeeds, `generateNginxConf` returns no error and the path
then holds `upstream backend {`, one line `    server <address>:<port>;` per address
in input order (as many lines as addresses), and `}`, where `<port>` is the decimal
numeral of the port (`specDecimal`, defined from the base ten digits and not from the
program's formatting); the text depends on the addresses and the port only, and no
other path changes. -/
theorem generateNginxConf_bytes (env : Env) (w : World) (path : String)
    (ips : List String) (port : Int)
    (hwrite : env.writeFile path (renderNginxConf ips port) = .ok) :
    (generateNginxConf env w path ips port).1 = none ∧
    (generateNginxConf env w path ips port).2.files path =
      some ("upstream backend \x7b\n" ++
        String.join (ips.map
          (fun ip => "    server " ++ ip ++ ":" ++ specDecimal port ++ ";\n"))
        ++ "\x7d\n") ∧
    (ips.map (fun ip => "    server " ++ ip ++ ":" ++ specDecimal port ++ ";\n")).length
      = ips.length ∧
    (∀ p, p ≠ path → (generateNginxConf env w path ips port).2.files p = w.files p) := by
  rw [generateNginxConf_ok env w path ips port hwrite]
  refine ⟨rfl, ?_, List.length_map _ _, ?_⟩
  · simp only [if_true]
    rw [renderNginxConf_eq]; rfl
  · intro p hp
    simp only [if_neg hp]

/-- Instance of C6: scenario A, `10.0.0.1` and `10.0.0.2` with port 8080; the
numerals of 8080, of a node port 30080, of zero and of a negative number. -/
theorem generateNginxConf_bytes_witness :
    renderNginxConf ["10.0.0.1", "10.0.0.2"] 8080 =
      "upstream backend \x7b\n    server 10.0.0.1:8080;\n    server 10.0.0.2:8080;\n\x7d\n" ∧
    specDecimal 8080 = "8080" ∧ specDecimal 30080 = "30080" ∧ specDecimal 0 = "0" ∧
    specDecimal (-17) = "-17" ∧
    ((generateNginxConf (sampleEnv [] ("", none)) sampleWorld "/tmp/upstream.conf"
        ["10.0.0.1", "10.0.0.2"] 8080).1 = none ∧
    (generateNginxConf (sampleEnv [] ("", none)) sampleWorld "/tmp/upstream.conf"
        ["10.0.0.1", "10.0.0.2"] 8080).2.files "/tmp/upstream.conf" =
      some ("upstream backend \x7b\n" ++
        String.join (["10.0.0.1", "10.0.0.2"].map
          (fun ip => "    server " ++ ip ++ ":" ++ specDecimal 8080 ++ ";\n"))
        ++ "\x7d\n") ∧
    (["10.0.0.1", "10.0.0.2"].map
        (fun ip => "    server " ++ ip ++ ":" ++ specDecimal 8080 ++ ";\n")).length
      = ["10.0.0.1", "10.0.0.2"].length ∧
    (∀ p, p ≠ "/tmp/upstream.conf" →
      (generateNginxConf (sampleEnv [] ("", none)) sampleWorld "/tmp/upstream.conf"
        ["10.0.0.1", "10.0.0.2"] 8080).2.files p = sampleWorld.files p)) :=
  ⟨by decide, by simp [specDecimal], by simp [specDecimal], by simp [specDecimal],
    by simp [specDecimal],
    generateNginxConf_bytes (sampleEnv [] ("", none)) sampleWorld "/tmp/upstream.conf"
      ["10.0.0.1", "10.0.0.2"] 8080 rfl⟩

/-- C7 (as stated, refuted): called with no address on a path that holds `old`,
`generateNginxConf` returns no error and the path then holds an upstream block without
members. -/
theorem generateNginxConf_overwrites_without_addresses :
    sampleWorld.files "/etc/nginx/conf.d/upstream.conf" = some "old" ∧
    (generateNginxConf (sampleEnv [] ("", none)) sampleWorld
      "/etc/nginx/conf.d/upstream.conf" [] 8080).1 = none ∧
    (generateNginxConf (sampleEnv [] ("", none)) sampleWorld
      "/etc/nginx/conf.d/upstream.conf" [] 8080).2.files "/etc/nginx/conf.d/upstream.conf"
      = some "upstream backend \x7b\n\x7d\n" := by
  refine ⟨rfl, rfl, ?_⟩
  rw [generateNginxConf_ok _ _ _ _ _ rfl]
  decide

/-- C7 (amended): `generateNginxConf` has no guard of its own for an empty address
list: it hands the block without members to the write, returns no error when the write
succeeds (the path then holds that block) and returns the write error otherwise. The
guard is in `updateNginxConfig`: when port resolution succeeds and node selection
yields no address, the cycle returns `no nodes found with specified label filter`
and every file is as before. -/
theorem generateNginxConf_no_guard (env : Env) (w : World) (path : String) (port : Int) :
    renderNginxConf [] port = "upstream backend \x7b\n\x7d\n" ∧
    (env.writeFile path "upstream backend \x7b\n\x7d\n" = .ok →
      (generateNginxConf env w path [] port).1 = none ∧
      (generateNginxConf env w path [] port).2.files path
        = some "upstream backend \x7b\n\x7d\n") ∧
    (∀ err after, env.writeFile path "upstream backend \x7b\n\x7d\n" = .failed err after →
      (generateNginxConf env w path [] port).1 = some err) ∧
    (∀ (cfg : Config) (p : Int),
      (getServicePort env w cfg.Namespace cfg.ServiceName cfg.PortName).1 = .ok p →
      (getNodeIPs env w cfg.NodeLabelKey cfg.NodeLabelVal cfg.IgnoreNotReady).1 = .ok [] →
      (updateNginxConfig env w cfg).1 = some "no nodes found with specified label filter" ∧
      (updateNginxConfig env w cfg).2.files = w.files) := by
  have hrender : renderNginxConf [] port = "upstream backend \x7b\n\x7d\n" := rfl
  refine ⟨hrender, ?_, ?_, ?_⟩
  · intro hw
    rw [generateNginxConf_ok env w path [] port (by rw [hrender]; exact hw)]
    exact ⟨rfl, by simp only [if_true, hrender]⟩
  · intro err after hw
    rw [generateNginxConf_failed env w path [] port err after (by rw [hrender]; exact hw)]
  · intro cfg p hp hn
    rw [updateNginxConfig_port_ok env w cfg p hp, getNodeIPs_pair]
    rw [getNodeIPs_fst] at hn
    rw [hn]
    exact ⟨rfl, rfl⟩

/-- C8: a cycle in which port resolution fails, or the node listing fails, or node
selection yields no address returns an error, leaves every file as it was and runs no
command. -/
theorem updateNginxConfig_failure_frame (env : Env) (w : World) (cfg : Config)
    (h : (∃ e, (getServicePort env w cfg.Namespace cfg.ServiceName cfg.PortName).1
            = .error e) ∨
         (∃ e, (getNodeIPs env w cfg.NodeLabelKey cfg.NodeLabelVal cfg.IgnoreNotReady).1
            = .error e) ∨
         (getNodeIPs env w cfg.NodeLabelKey cfg.NodeLabelVal cfg.IgnoreNotReady).1
            = .ok []) :
    ∃ err, (updateNginxConfig env w cfg).1 = some err ∧
      (updateNginxConfig env w cfg).2.files = w.files ∧
      (updateNginxConfig env w cfg).2.execs = w.execs := by
  cases hp : (getServicePort env w cfg.Namespace cfg.ServiceName cfg.PortName).1 with
  | error e =>
    rw [updateNginxConfig_port_error env w cfg e hp]
    exact ⟨_, rfl, rfl, rfl⟩
  | ok port =>
    rw [updateNginxConfig_port_ok env w cfg port hp, getNodeIPs_pair]
    rw [getNodeIPs_fst] at h
    rcases h with ⟨e, he⟩ | ⟨e, he⟩ | he
    · rw [hp] at he; cases he
    · rw [he]; exact ⟨_, rfl, rfl, rfl⟩
    · rw [he]; exact ⟨_, rfl, rfl, rfl⟩

/-- Instance of C8: scenario C, the requested port name `grpc` is not declared. -/
theorem updateNginxConfig_failure_frame_witness :
    (updateNginxConfig (sampleEnv [sampleNode1, sampleNode2] ("", none)) sampleWorld
        { sampleConfig with PortName := "grpc" }).1 =
      some "getServicePort error: port \x22grpc\x22 not found in service ns/svc" ∧
    ∃ err, (updateNginxConfig (sampleEnv [sampleNode1, sampleNode2] ("", none)) sampleWorld
        { sampleConfig with PortName := "grpc" }).1 = some err ∧
      (updateNginxConfig (sampleEnv [sampleNode1, sampleNode2] ("", none)) sampleWorld
        { sampleConfig with PortName := "grpc" }).2.files = sampleWorld.files ∧
      (updateNginxConfig (sampleEnv [sampleNode1, sampleNode2] ("", none)) sampleWorld
        { sampleConfig with PortName := "grpc" }).2.execs = sampleWorld.execs :=
  ⟨rfl,
    updateNginxConfig_failure_frame (sampleEnv [sampleNode1, sampleNode2] ("", none))
      sampleWorld { sampleConfig with PortName := "grpc" } (Or.inl ⟨_, rfl⟩)⟩

/-- C9: when port resolution, node selection (non-empty) and the write succeed and the
reload command, run once, reports an execution error, the cycle returns
`reloadNginx error: reload command failed: <error>, output: <output>`, which contains
the captured output and the execution error, and the artifact path holds the newly
rendered upstream block. -/
theorem updateNginxConfig_reload_failed (env : Env) (w : World) (cfg : Config)
    (port : Int) (ips : List String) (out err : String)
    (hport : (getServicePort env w cfg.Namespace cfg.ServiceName cfg.PortName).1 = .ok port)
    (hips : (getNodeIPs env w cfg.NodeLabelKey cfg.NodeLabelVal cfg.IgnoreNotReady).1
      = .ok ips)
    (hne : ips ≠ [])
    (hwrite : env.writeFile cfg.NginxConf (renderNginxConf ips port) = .ok)
    (hcmd : cfg.ReloadCmd ≠ [])
    (hrun : env.runCmd cfg.ReloadCmd = (out, some err)) :
    (updateNginxConfig env w cfg).1 =
      some ("reloadNginx error: " ++ ("reload command failed: " ++ err ++ ", output: " ++ out)) ∧
    (∀ msg, (updateNginxConfig env w cfg).1 = some msg →
      Contains msg out ∧ Contains msg err) ∧
    (updateNginxConfig env w cfg).2.files cfg.NginxConf = some (specNginxConf ips port) ∧
    (updateNginxConfig env w cfg).2.execs = w.execs ++ [cfg.ReloadCmd] := by
  have hlen : ¬ ips.length = 0 := fun h => hne (List.length_eq_zero.mp h)
  have hupd : updateNginxConfig env w cfg =
      (some ("reloadNginx error: " ++
          ("reload command failed: " ++ err ++ ", output: " ++ out)),
        { World.log
            { World.log
                { World.log
                    { w with calls := w.calls ++
                        [ApiCall.servicesGet cfg.Namespace cfg.ServiceName] }
                    ("Using port " ++ formatD port ++ " for service " ++ cfg.Namespace
                      ++ "/" ++ cfg.ServiceName)
                  with calls := w.calls ++
                        [ApiCall.servicesGet cfg.Namespace cfg.ServiceName] ++
                        [ApiCall.nodesList (labelSelector cfg.NodeLabelKey cfg.NodeLabelVal)] }
                ("Found nodes: " ++ formatStrings ips)
              with files := fun p => if p = cfg.NginxConf then some (renderNginxConf ips port)
                                     else w.files p }
            ("Nginx config updated at " ++ cfg.NginxConf)
          with execs := w.execs ++ [cfg.ReloadCmd] }) := by
    rw [updateNginxConfig_port_ok env w cfg port hport, getNodeIPs_pair]
    rw [getNodeIPs_fst] at hips
    rw [hips]
    simp only [if_neg hlen]
    rw [generateNginxConf_ok env _ cfg.NginxConf ips port hwrite]
    simp only
    rw [reloadNginx_failed env _ cfg.ReloadCmd out err hcmd hrun]
    rfl
  rw [hupd]
  refine ⟨rfl, ?_, ?_, rfl⟩
  · intro msg hmsg
    have hm : msg = "reloadNginx error: " ++
        ("reload command failed: " ++ err ++ ", output: " ++ out) := by
      injection hmsg with h; exact h.symm
    subst hm
    exact ⟨contains_append_right _ (contains_append_right _ (contains_refl _)),
      contains_append_right _ (contains_append_left _ (contains_append_left _
        (contains_append_right _ (contains_refl _))))⟩
  · show (if cfg.NginxConf = cfg.NginxConf then some (renderNginxConf ips port)
      else w.files cfg.NginxConf) = _
    rw [if_pos rfl, renderNginxConf_eq]

/-- Instance of C9: scenario D, the reload command exits with status 1. -/
theorem updateNginxConfig_reload_failed_witness :
    (updateNginxConfig (sampleEnv [sampleNode1, sampleNode2] ("nginx: bad", some "exit status 1"))
        sampleWorld sampleConfig).1 =
      some "reloadNginx error: reload command failed: exit status 1, output: nginx: bad" ∧
    ((updateNginxConfig (sampleEnv [sampleNode1, sampleNode2] ("nginx: bad", some "exit status 1"))
        sampleWorld sampleConfig).1 =
      some ("reloadNginx error: " ++
        ("reload command failed: " ++ "exit status 1" ++ ", output: " ++ "nginx: bad")) ∧
    (∀ msg, (updateNginxConfig
        (sampleEnv [sampleNode1, sampleNode2] ("nginx: bad", some "exit status 1"))
        sampleWorld sampleConfig).1 = some msg →
      Contains msg "nginx: bad" ∧ Contains msg "exit status 1") ∧
    (updateNginxConfig (sampleEnv [sampleNode1, sampleNode2] ("nginx: bad", some "exit status 1"))
        sampleWorld sampleConfig).2.files sampleConfig.NginxConf =
      some (specNginxConf ["10.0.0.1", "10.0.0.2"] 8080) ∧
    (updateNginxConfig (sampleEnv [sampleNode1, sampleNode2] ("nginx: bad", some "exit status 1"))
        sampleWorld sampleConfig).2.execs = sampleWorld.execs ++ [sampleConfig.ReloadCmd]) :=
  ⟨rfl,
    updateNginxConfig_reload_failed
      (sampleEnv [sampleNode1, sampleNode2] ("nginx: bad", some "exit status 1"))
      sampleWorld sampleConfig 8080 ["10.0.0.1", "10.0.0.2"] "nginx: bad" "exit status 1"
      rfl rfl (by decide) rfl (by decide) rfl⟩

/-- C10: from the Watching control point, a sequence of n events received without
closure or cancellation is processed as one `handleEvent` per event in delivery order,
the watcher is Watching afterwards and exactly n more cycles were begun (also when
`watchNodes` is started and the subscription is established first); an event whose
cycle returns an error keeps the watcher Watching and only reports it: one line
`failed to update nginx config: <error>` is appended to the log, files and executed
commands stay as the cycle left them; a step from Watching leaves Watching exactly on
channel closure or cancellation. -/
theorem watchNodes_cycle_per_event (cfg : Config) (events : List (String × Env))
    (w : World) :
    runWatcher cfg (.watching, w) (events.map (fun e => Stimulus.event e.1 e.2)) =
      some (.watching, events.foldl (fun w e => handleEvent cfg w e.1 e.2) w) ∧
    cyclesBegun (events.foldl (fun w e => handleEvent cfg w e.1 e.2) w) =
      cyclesBegun w + events.length ∧
    (∃ w2, watchNodes cfg w (Stimulus.watchOk :: events.map (fun e => Stimulus.event e.1 e.2))
        = some (.watching, w2) ∧ cyclesBegun w2 = cyclesBegun w + events.length) ∧
    (∀ (ty : String) (env : Env) (w1 : World) (err : String),
      (updateNginxConfig env (w1.log ("Node event: " ++ ty)) cfg).1 = some err →
      watchStep cfg .watching w1 (.event ty env) =
        some (.watching,
          World.log (updateNginxConfig env (w1.log ("Node event: " ++ ty)) cfg).2
            ("failed to update nginx config: " ++ err)) ∧
      (World.log (updateNginxConfig env (w1.log ("Node event: " ++ ty)) cfg).2
          ("failed to update nginx config: " ++ err)).logs =
        (updateNginxConfig env (w1.log ("Node event: " ++ ty)) cfg).2.logs ++
          ["failed to update nginx config: " ++ err] ∧
      (World.log (updateNginxConfig env (w1.log ("Node event: " ++ ty)) cfg).2
          ("failed to update nginx config: " ++ err)).files =
        (updateNginxConfig env (w1.log ("Node event: " ++ ty)) cfg).2.files ∧
      (World.log (updateNginxConfig env (w1.log ("Node event: " ++ ty)) cfg).2
          ("failed to update nginx config: " ++ err)).execs =
        (updateNginxConfig env (w1.log ("Node event: " ++ ty)) cfg).2.execs) ∧
    (∀ (s : Stimulus) (w1 w2 : World) (st2 : WatcherState),
      watchStep cfg .watching w1 s = some (st2, w2) →
      (st2 ≠ .watching ↔ (s = .chClosed ∨ s = .ctxDone))) := by
  refine ⟨runWatcher_events cfg events w, cyclesBegun_foldl cfg events w, ?_, ?_, ?_⟩
  · refine ⟨events.foldl (fun w e => handleEvent cfg w e.1 e.2)
      (World.log { w with calls := w.calls ++ [ApiCall.nodesWatch] }
        "Started watching nodes for changes"), ?_, ?_⟩
    · unfold watchNodes runWatcher
      simp only [watchStep]
      exact runWatcher_events cfg events _
    · rw [cyclesBegun_foldl]
      simp [cyclesBegun, World.log]
  · intro ty env w1 err herr
    refine ⟨?_, rfl, rfl, rfl⟩
    simp only [watchStep, handleEvent]
    rcases hu : updateNginxConfig env (w1.log ("Node event: " ++ ty)) cfg with ⟨r, w2⟩
    rw [hu] at herr
    dsimp only at herr
    subst herr
    rfl
  · intro s w1 w2 st2 hstep
    cases s with
    | watchOk => simp [watchStep] at hstep
    | watchErr e => simp [watchStep] at hstep
    | timer => simp [watchStep] at hstep
    | event ty env =>
      simp only [watchStep, Option.some.injEq, Prod.mk.injEq] at hstep
      rw [← hstep.1]
      simp
    | chClosed =>
      simp only [watchStep, Option.some.injEq, Prod.mk.injEq] at hstep
      rw [← hstep.1]
      simp
    | ctxDone =>
      simp only [watchStep, Option.some.injEq, Prod.mk.injEq] at hstep
      rw [← hstep.1]
      simp

end NginxUpdater
